import Mathlib

/-!
Verification development for the soupchef crawler (src/soupchef.py,
src/index.py).  The Python source is shallowly embedded: pure helpers become
Lean functions, the mutable index and the filesystem become explicit state,
HTTP transport / page parsing become oracles passed as arguments, and Python
exceptions become `Except PyErr`.  Python strings are Lean `String`s (file
contents are `List Char` at the text layer, after codec decoding; the UTF-8
byte-order-marker handling of `encoding='utf-8-sig'` is therefore invisible
here, exactly because reading strips it again).
-/

set_option maxHeartbeats 1000000
set_option maxRecDepth 100000

namespace Soupchef

/-- Python exceptions that the embedded code can raise. -/
inductive PyErr where
  | keyError : String → PyErr
  | typeError : PyErr
  | valueError : PyErr
  | nameError : String → PyErr
  | fileExistsError : PyErr
  deriving DecidableEq, Repr

/-! ## url_to_id / id_to_url  (soupchef.py lines 489-509)

`url_to_id` is `re.search(r'rezepte/(\d+)/', url)[1]`: the leftmost occurrence
of the literal `rezepte/`, followed by one or more digits (greedy; since `/`
is not a digit, greedy matching with no backtracking is exact here), followed
by `/`.  `re.search` returning `None` makes the `[1]` subscript raise
`TypeError`; we model the whole expression as `Option String` where `none`
is that raise. -/

/-- Characters of the literal part `rezepte/` of the regular expression. -/
def recipeLit : List Char := ['r', 'e', 'z', 'e', 'p', 't', 'e', '/']

/-- Boolean list-prefix test used to match the literal `rezepte/`. -/
def startsWithL : List Char → List Char → Bool
  | [], _ => true
  | _ :: _, [] => false
  | p :: ps, c :: cs => p == c && startsWithL ps cs

/-- Attempt to match `rezepte/(\d+)/` at the head of `cs`; returns the
captured digit group. -/
def matchRecipeAt (cs : List Char) : Option String :=
  if startsWithL recipeLit cs then
    let rest := cs.drop 8
    let ds := rest.takeWhile Char.isDigit
    let rest2 := rest.dropWhile Char.isDigit
    if ds ≠ [] ∧ rest2.head? = some '/' then some (String.mk ds) else none
  else none

/-- Leftmost-match search for `rezepte/(\d+)/`, as `re.search` does. -/
def searchRecipe : List Char → Option String
  | [] => none
  | c :: cs =>
    match matchRecipeAt (c :: cs) with
    | some s => some s
    | none => searchRecipe cs

/-- Model of `url_to_id` (soupchef.py line 498); `none` models the
`TypeError` raised by `re.search(...)[1]` when there is no match. -/
def url_to_id (url : String) : Option String := searchRecipe url.data

/-- Model of `id_to_url` (soupchef.py line 509). -/
def id_to_url (id : String) : String := "https://chefkoch.de/rezepte/" ++ id ++ "/"

/-- Declarative reading of the regular expression: the URL contains a segment
`rezepte/<digits>/` with at least one digit. -/
def hasRecipeSegment (url : String) : Prop :=
  ∃ a ds b, url.data = a ++ recipeLit ++ ds ++ '/' :: b ∧ ds ≠ [] ∧ ∀ c ∈ ds, c.isDigit

/-! ## The dedup index  (index.py)

`_Index` keeps an in-memory list `_index` and an append-mode file handle.
`add` (lines 34-45) appends to the list and writes `element + '\n'` to the
file when the element is new.  `__init__` (lines 73-86) reads the file with
`[line.strip() for line in infile]` (BOM-tolerant via `utf-8-sig`; the codec
layer is below our text-level model), and when the file is absent it runs
`os.makedirs(dirname)` — with no `exist_ok=True`.  File contents are
modelled as `List Char` after codec decoding; `line.strip()` is modelled by
`pyStrip` over `Char.isWhitespace` (space, tab, CR, LF — the whitespace that
actually occurs in identifier data; Python additionally strips more exotic
Unicode whitespace, which no theorem below touches). -/

/-- Model of Python `str.strip()` on the characters of a line. -/
def pyStrip (l : List Char) : List Char :=
  ((l.dropWhile Char.isWhitespace).reverse.dropWhile Char.isWhitespace).reverse

/-- Split file text into the lines that iterating a Python text file yields:
each `'\n'` ends a line, and trailing text without a final newline is still a
line (the terminator itself is dropped — `strip` removes it anyway). -/
def splitNl : List Char → List (List Char)
  | [] => []
  | c :: cs =>
    if c = '\n' then [] :: splitNl cs
    else
      match splitNl cs with
      | [] => [[c]]
      | l :: ls => (c :: l) :: ls

/-- Model of `[line.strip() for line in infile]` (index.py line 78). -/
def readIndexLines (content : List Char) : List String :=
  (splitNl content).map (fun l => String.mk (pyStrip l))

/-- State of an open `_Index`: the in-memory `_index` list and the text so
far appended to `index.dat`. -/
structure IndexState where
  mem : List String
  file : List Char
  deriving DecidableEq, Repr

/-- Index state after `__init__` on an absent file: empty list, empty file. -/
def emptyIndex : IndexState := ⟨[], []⟩

/-- Model of `_Index.add` (index.py lines 34-45): skip an element already in
`_index`, otherwise append it in memory and write `str(element) + '\n'` to
the open log handle. -/
def indexAdd (s : IndexState) (e : String) : IndexState :=
  if e ∈ s.mem then s else ⟨s.mem ++ [e], s.file ++ e.data ++ ['\n']⟩

/-- A sequence of `add` calls. -/
def indexAddAll (s : IndexState) (es : List String) : IndexState :=
  es.foldl indexAdd s

/-- In-memory list obtained by re-running `__init__` on the flushed file
(`close()` only flushes; it does not change the text written). -/
def reopenIndex (s : IndexState) : List String :=
  readIndexLines s.file

/-- Presence bits of the index file and of its parent directory, as seen by
`_Index.__init__`. -/
structure FSState where
  fileExists : Bool
  dirExists : Bool
  deriving DecidableEq, Repr

/-- Model of `_Index.__init__` (index.py lines 73-86): read the file if
present; on `FileNotFoundError` run `os.makedirs(dirname)` — which, lacking
`exist_ok=True`, raises `FileExistsError` when the parent directory already
exists — then start empty; finally `open(path, mode='a')` creates the file. -/
def index_init (fs : FSState) (content : List Char) :
    Except PyErr (List String × FSState) :=
  if fs.fileExists then
    .ok (readIndexLines content, fs)
  else if fs.dirExists then
    .error PyErr.fileExistsError
  else
    .ok ([], ⟨true, true⟩)

/-- Identifiers that survive `strip` and contain no line terminator: these
are exactly the strings whose log line reads back unchanged.  (Real
identifiers from `url_to_id` are digit strings and satisfy this.) -/
def cleanId (id : String) : Prop :=
  pyStrip id.data = id.data ∧ '\n' ∉ id.data ∧ '\r' ∉ id.data

instance (id : String) : Decidable (cleanId id) := by
  unfold cleanId; infer_instance

/-- Invariant tying the file text to the in-memory list: the file is exactly
one line per in-memory element, and all elements are clean. -/
def FileInv (s : IndexState) : Prop :=
  s.file = (s.mem.map (fun m => m.data ++ ['\n'])).flatten ∧ ∀ m ∈ s.mem, cleanId m

/-- Model of Python `str.split(sep)` for a one-character separator: every
occurrence of `sep` splits, adjacent separators give empty fragments, and the
empty string yields one empty fragment. -/
def splitOnChar (sep : Char) : List Char → List (List Char)
  | [] => [[]]
  | c :: cs =>
    if c = sep then [] :: splitOnChar sep cs
    else
      match splitOnChar sep cs with
      | [] => [[c]]
      | l :: ls => (c :: l) :: ls

/-- Numeric value of a digit string. -/
def digitsVal (l : List Char) : Nat :=
  l.foldl (fun n c => 10 * n + (c.toNat - 48)) 0

/-- Model of `float(s)` for plain decimal numerals `digits[.digits]`;
`none` models the `ValueError` that the bare `except` turns into `exit(1)`. -/
def parseDecimal? (l : List Char) : Option ℚ :=
  match splitOnChar '.' l with
  | [i] =>
    if i ≠ [] ∧ i.all Char.isDigit then some ((digitsVal i : ℚ)) else none
  | [i, f] =>
    if (i ≠ [] ∨ f ≠ []) ∧ i.all Char.isDigit ∧ f.all Char.isDigit then
      some ((digitsVal i : ℚ) + (digitsVal f : ℚ) / ((10 : ℚ) ^ f.length))
    else none
  | _ => none

/-- Model of `random.randint(a, b)` applied to (possibly non-integral)
numeric bounds: a bound that is not a whole number raises `ValueError`, an
empty range raises `ValueError`, otherwise the oracle `rand` picks an
integer in `[a, b]`. -/
def pyRandint (rand : ℤ → ℤ → ℤ) (a b : ℚ) : Except PyErr ℤ :=
  if a.den = 1 ∧ b.den = 1 then
    if a.num ≤ b.num then .ok (rand a.num b.num) else .error PyErr.valueError
  else .error PyErr.valueError

/-- Outcome of `_wait_time`: a fatal configuration error (`logger.critical`
followed by `exit(1)`), an uncaught Python exception, or a returned delay in
microseconds. -/
inductive WaitOut where
  | fatal : WaitOut
  | err : PyErr → WaitOut
  | delay : ℚ → WaitOut
  deriving DecidableEq, Repr

/-- Model of `_wait_time` (soupchef.py lines 55-89). -/
def wait_time (rand : ℤ → ℤ → ℤ) (rate_limit : String) : WaitOut :=
  match splitOnChar '-' rate_limit.data with
  | [f] =>
    match parseDecimal? f with
    | none => .fatal
    | some limit => if limit < 0 then .fatal else .delay (limit * 1000000)
  | [f1, f2] =>
    match parseDecimal? f1, parseDecimal? f2 with
    | some lower, some upper =>
      if lower < 0 ∨ upper < 0 then .fatal
      else
        match pyRandint rand (lower * 1000) (upper * 1000) with
        | .error e => .err e
        | .ok k => .delay ((k : ℚ) / 1000 * 1000000)
    | _, _ => .fatal
  | _ => .fatal

/-! ## Fetch executor  (soupchef.py lines 213-281)

`fetch_url` performs `for i in range(10): r = requests.get(...)`, breaking on
the first response with `r.ok` (requests defines `ok` as `status_code <
400`).  The HTTP transport is the oracle `FetchEnv.status` giving the status
of the i-th GET; field extraction (`_get_title` and friends, lines 254-269)
on the body of attempt `i` is the oracle `FetchEnv.parse`, where `none`
means the extraction raised and `some rel` is a successful record carrying
the related identifiers.  `fetch_comments` on the success path and the
opaque payload fields are abstracted into the record.

After the loop the source behaves as follows, faithfully modelled:
* all attempts failed: execution falls through to line 279,
  `logger.info(f'Fetched {data["id"]} ...')`, whose f-string subscripts the
  still-empty dict — `KeyError 'id'`;
* extraction raised: the `except` returns the empty dict early (line 273),
  the genuine failure marker, modelled `.ok none`;
* success: a full record is returned, modelled `.ok (some (id, related))`.

`fetch_and_save_url` (lines 213-229) then adds the id to the index when the
result is truthy and the shutdown flag is clear, and calls
`_write_json(data)` whenever the flag is clear — also on the empty dict,
where `_write_json` immediately evaluates `data["title"]` (line 650) and
raises `KeyError`.  A successful record write is abstracted as succeeding. -/

/-- Model of `requests.Response.ok`: status below 400. -/
def r_ok (status : Nat) : Bool := status < 400

/-- HTTP transport and page-parser oracles for one URL. -/
structure FetchEnv where
  status : Nat → Nat
  parse : Nat → Option (List String)

/-- Retry loop of `fetch_url` (lines 242-247): attempt `i` with `rem`
further attempts allowed; returns the status of the last GET performed and
the number of GETs performed. -/
def fetchLoop (st : Nat → Nat) : Nat → Nat → Nat × Nat
  | i, 0 => (st i, 1)
  | i, rem + 1 =>
    let s := st i
    if r_ok s then (s, 1)
    else
      let p := fetchLoop st (i + 1) rem
      (p.1, p.2 + 1)

/-- Model of `fetch_url` (lines 231-281).  Result: `.ok (some (id, rel))` on
success, `.ok none` for the empty failure dict returned when extraction
raises, `.error` when an exception escapes `fetch_url` itself. -/
def fetch_url_model (env : FetchEnv) (url : String) :
    Except PyErr (Option (String × List String)) :=
  let r := fetchLoop env.status 0 9
  if r_ok r.1 then
    match url_to_id url with
    | none => .error PyErr.typeError
    | some id =>
      match env.parse (r.2 - 1) with
      | none => .ok none
      | some rel => .ok (some (id, rel))
  else .error (PyErr.keyError "id")

/-- Model of `fetch_and_save_url` (lines 213-229) acting on the index
state; `shutdown` is the value of the global `_shutdown` flag it reads. -/
def fetch_and_save_url_model (env : FetchEnv) (shutdown : Bool)
    (idx : IndexState) (url : String) :
    Except PyErr (Option (String × List String) × IndexState) :=
  match fetch_url_model env url with
  | .error e => .error e
  | .ok data =>
    let idx' := match data with
      | some (id, _) => if shutdown then idx else indexAdd idx id
      | none => idx
    if shutdown then .ok (data, idx')
    else
      match data with
      | none => .error (PyErr.keyError "title")
      | some _ => .ok (data, idx')

/-! ## Shutdown signal handling  (soupchef.py lines 52-53 and 677-683,
index.py lines 57-62 and 85)

`soupchef._sigint_handler` executes `_shutdown = True` without a
`global _shutdown` statement, so Python binds a function-local name and the
module-level flag keeps its value.  Moreover `main` first installs that
handler (line 683) and then `open_index` → `_Index.__init__` installs
`_Index._sigint_handler` (index.py line 85), which closes the index file
and calls `sys.exit(0)`; the later installation wins, and it never touches
`_shutdown` either. -/

/-- Process-wide mutable state observed by the handlers. -/
structure Globals where
  shutdown : Bool
  indexOpen : Bool
  exited : Bool
  deriving DecidableEq, Repr

/-- Model of `soupchef._sigint_handler` (lines 677-679): the assignment
`_shutdown = True`, lacking a `global` declaration, creates a function-local
binding and leaves the module global unchanged. -/
def soupchef_sigint_handler (g : Globals) : Globals :=
  let _shutdownLocal := true
  g

/-- Model of `_Index._sigint_handler` (index.py lines 57-62): flush and
close the index file, then `sys.exit(0)`. -/
def index_sigint_handler (g : Globals) : Globals :=
  { g with indexOpen := false, exited := true }

/-- The two handlers registered for the interrupt signal. -/
inductive Handler where
  | soupchefH : Handler
  | indexH : Handler
  deriving DecidableEq, Repr

/-- Effect of invoking a handler. -/
def runHandler : Handler → Globals → Globals
  | .soupchefH => soupchef_sigint_handler
  | .indexH => index_sigint_handler

/-- Order of the `signal.signal(SIGINT, ...)` calls during startup:
`main` (soupchef.py line 683) first, then `_Index.__init__` (index.py
line 85, reached from `open_index` at soupchef.py line 778). -/
def installSequence : List Handler := [Handler.soupchefH, Handler.indexH]

/-- The handler actually installed once startup finished: the last
registration wins. -/
def installedHandler : Handler := installSequence.getLastD Handler.soupchefH

/-! ## Crawl orchestrator  (soupchef.py lines 157-211)

`fetch_urls` drives breadth-first levels: `stack = [urls]`, and after each
level it appends the level's `related_urls` exactly when
`len(stack) <= args.recursion_depth and len(related_urls) > 0`.  When the
loop reaches level number `i` (0-based), `len(stack) = i + 1`, so the
remaining number of permitted appends is `budget = recursion_depth - i`;
`crawlLoop` recurses on that budget, starting at `budget = recursion_depth`.

Within a level the submission loop computes `id = url_to_id(url)` (a raise
aborts `fetch_urls`, modelled `.error`), skips when
`not force_all and id in index`, and otherwise submits
`fetch_and_save_url`.  The thread pool is modelled by the schedule in which
each submitted worker runs to completion before the next dispatch decision —
one legal schedule of the pool, and the only source of nondeterminism the
pool adds is which interleaving the index checks observe.  `workers` is a
Python dict keyed by id (insertion-ordered, overwrite keeps the slot), and
the collection loop walks it in order, counting truthy results and folding
their related ids (as URLs via `id_to_url`) into `related_urls`.  A worker
whose result is an exception propagates out of `worker.result()` and aborts
`fetch_urls`, which the `.error` propagation models. -/

/-- Python-dict insertion for the `workers` mapping. -/
def dictInsert (k : String) (v : Option (String × List String))
    (d : List (String × Option (String × List String))) :
    List (String × Option (String × List String)) :=
  if d.any (fun p => p.1 == k) then
    d.map (fun p => if p.1 == k then (k, v) else p)
  else d ++ [(k, v)]

/-- Submission loop of one level (lines 187-199): returns the index state,
the workers dict, and the number of workers dispatched. -/
def submitLevel (envOf : String → FetchEnv) (forceAll : Bool) :
    List String → IndexState → List (String × Option (String × List String)) → Nat →
    Except PyErr (IndexState × List (String × Option (String × List String)) × Nat)
  | [], idx, ws, n => .ok (idx, ws, n)
  | url :: rest, idx, ws, n =>
    match url_to_id url with
    | none => .error PyErr.typeError
    | some id =>
      if forceAll = true ∨ id ∉ idx.mem then
        match fetch_and_save_url_model (envOf url) false idx url with
        | .error e => .error e
        | .ok (data, idx') =>
          submitLevel envOf forceAll rest idx' (dictInsert id data ws) (n + 1)
      else submitLevel envOf forceAll rest idx ws n

/-- Collection loop over `workers.items()` (lines 201-206): count of truthy
results, `related_urls`, and `new_ids`. -/
def collectWorkers :
    List (String × Option (String × List String)) → Nat × List String × List String
  | [] => (0, [], [])
  | (_, none) :: rest => collectWorkers rest
  | (wid, some (_, rel)) :: rest =>
    let p := collectWorkers rest
    (p.1 + 1, rel.map id_to_url ++ p.2.1, wid :: p.2.2)

/-- Record of one processed level. -/
structure LevelRec where
  urls : List String
  dispatched : Nat
  fetchedIds : List String
  related : List String
  deriving DecidableEq, Repr

/-- Result of a whole `fetch_urls` run. -/
structure CrawlOut where
  levels : List LevelRec
  totalFetched : Nat
  index : IndexState
  deriving DecidableEq, Repr

/-- One full level: submit every URL, then join and collect all workers. -/
def processLevel (envOf : String → FetchEnv) (forceAll : Bool)
    (idx : IndexState) (level : List String) :
    Except PyErr (IndexState × LevelRec × Nat) :=
  match submitLevel envOf forceAll level idx [] 0 with
  | .error e => .error e
  | .ok (idx', ws, n) =>
    let c := collectWorkers ws
    .ok (idx', ⟨level, n, c.2.2, c.2.1⟩, c.1)

/-- Level loop of `fetch_urls` with `budget` appends still permitted
(`budget = recursion_depth - (len(stack) - 1)`); a new level starts exactly
when the budget is positive and the completed level produced related URLs. -/
def crawlLoop (envOf : String → FetchEnv) (forceAll : Bool) :
    Nat → IndexState → List String → Except PyErr CrawlOut
  | 0, idx, level =>
    match processLevel envOf forceAll idx level with
    | .error e => .error e
    | .ok (idx', lr, fetched) => .ok ⟨[lr], fetched, idx'⟩
  | b + 1, idx, level =>
    match processLevel envOf forceAll idx level with
    | .error e => .error e
    | .ok (idx', lr, fetched) =>
      match lr.related with
      | [] => .ok ⟨[lr], fetched, idx'⟩
      | _ :: _ =>
        match crawlLoop envOf forceAll b idx' lr.related with
        | .error e => .error e
        | .ok out => .ok ⟨lr :: out.levels, fetched + out.totalFetched, out.index⟩

/-- Index-only path of `fetch_urls` (lines 170-174): add every id, fetch
nothing. -/
def addIds (idx : IndexState) : List String → Except PyErr IndexState
  | [] => .ok idx
  | url :: rest =>
    match url_to_id url with
    | none => .error PyErr.typeError
    | some id => addIds (indexAdd idx id) rest

/-- Model of `fetch_urls` (lines 157-211). -/
def fetch_urls_model (envOf : String → FetchEnv) (indexOnly forceAll : Bool)
    (recursionDepth : Nat) (idx : IndexState) (urls : List String) :
    Except PyErr CrawlOut :=
  if indexOnly then
    match addIds idx urls with
    | .error e => .error e
    | .ok idx' => .ok ⟨[], 0, idx'⟩
  else crawlLoop envOf forceAll recursionDepth idx urls

/-! ## Comment pagination  (soupchef.py lines 412-487)

`fetch_comments` pages through the JSON API in steps of 500.  Each page is
fetched with the 10-try retry loop (breaking on the first `r.ok` response);
a page that fails all tries, or whose body is not JSON, contributes nothing
to `json_pages` and leaves `json_data` bound to the previous successful
page.  Each iteration then runs `total_count = json_data['count']`
(a `NameError` if no page ever succeeded) and breaks once
`offset + 500 >= total_count`; otherwise it advances to the next offset —
notably it does NOT stop on a failed page.  At the end the comments of all
successfully fetched pages are extracted in order.  The transport/JSON
oracle `resp offset i` yields `none` when try `i` at `offset` is not ok,
`some none` when it is ok but the body fails to parse as JSON, and
`some (some p)` for a parsed page; comments are abstracted as `Nat` tokens.
The loop is `while True`, so the model carries fuel; `none` means the fuel
ran out (the concrete runs below use ample fuel). -/

/-- Parsed comment page: declared total `count` and this page's items. -/
structure CPage where
  count : Nat
  results : List Nat
  deriving DecidableEq, Repr

/-- Retry loop for one offset (lines 436-447): first ok response among 10
tries, or `none` if all fail. -/
def commentRetry (resp : Nat → Nat → Option (Option CPage)) (offset : Nat) :
    Option (Option CPage) :=
  (List.range 10).findSome? (fun i => resp offset i)

/-- Pagination loop of `fetch_comments` (lines 435-463), returning the
successfully parsed pages and the list of offsets attempted. -/
def fetchCommentsLoop (resp : Nat → Nat → Option (Option CPage)) :
    Nat → Nat → Option CPage → List CPage → List Nat →
    Option (Except PyErr (List CPage × List Nat))
  | 0, _, _, _, _ => none
  | fuel + 1, offset, lastPage, pages, offsets =>
    let offsets' := offsets ++ [offset]
    let st :=
      match commentRetry resp offset with
      | none => (lastPage, pages)
      | some none => (lastPage, pages)
      | some (some p) => (some p, pages ++ [p])
    match st.1 with
    | none => some (.error (PyErr.nameError "json_data"))
    | some jd =>
      if jd.count ≤ offset + 500 then some (.ok (st.2, offsets'))
      else fetchCommentsLoop resp fuel (offset + 500) st.1 st.2 offsets'

/-- Model of `fetch_comments` (lines 412-487): the harvested comments in
page order together with the offsets attempted.  `num` is the `-c` count
(`0` returns immediately; its sign otherwise only selects the URL). -/
def fetch_comments_model (resp : Nat → Nat → Option (Option CPage)) (num : Int)
    (fuel : Nat) : Option (Except PyErr (List Nat × List Nat)) :=
  if num = 0 then some (.ok ([], []))
  else
    match fetchCommentsLoop resp fuel 0 none [] [] with
    | none => none
    | some (.error e) => some (.error e)
    | some (.ok (pages, offsets)) =>
      some (.ok ((pages.map CPage.results).flatten, offsets))

/-- Transport stub of the C9 scenario: offset 0 succeeds with 500 of a
declared 1200 comments; every try at every later offset fails. -/
def c9stub : Nat → Nat → Option (Option CPage)
  | 0, _ => some (some ⟨1200, List.range 500⟩)
  | _ + 1, _ => none

example : url_to_id "https://chefkoch.de/rezepte/123/" = some "123" := by decide

example : url_to_id (id_to_url "4057") = some "4057" := by decide

example : url_to_id "https://chefkoch.de/magazin/" = none := by decide

lemma startsWithL_append (p t : List Char) : startsWithL p (p ++ t) = true := by
  induction p with
  | nil => rfl
  | cons c cs ih => simp [startsWithL, ih]

lemma startsWithL_iff (p l : List Char) : startsWithL p l = true ↔ ∃ t, l = p ++ t := by
  constructor
  · intro h
    induction p generalizing l with
    | nil => exact ⟨l, rfl⟩
    | cons c cs ih =>
      cases l with
      | nil => simp [startsWithL] at h
      | cons d ds =>
        simp only [startsWithL, Bool.and_eq_true, beq_iff_eq] at h
        obtain ⟨t, ht⟩ := ih ds h.2
        exact ⟨t, by simp [h.1, ht]⟩
  · rintro ⟨t, rfl⟩
    exact startsWithL_append p t

lemma matchRecipeAt_cons_ne {c : Char} (cs : List Char) (h : c ≠ 'r') :
    matchRecipeAt (c :: cs) = none := by
  have : startsWithL recipeLit (c :: cs) = false := by
    simp only [recipeLit, startsWithL, Bool.and_eq_false_iff, beq_eq_false_iff_ne, ne_eq]
    exact Or.inl fun hr => h hr.symm
  simp [matchRecipeAt, this]

lemma searchRecipe_cons (c : Char) (cs : List Char) :
    searchRecipe (c :: cs)
      = match matchRecipeAt (c :: cs) with
        | some s => some s
        | none => searchRecipe cs := rfl

lemma searchRecipe_cons_none {c : Char} {cs : List Char}
    (h : matchRecipeAt (c :: cs) = none) :
    searchRecipe (c :: cs) = searchRecipe cs := by
  rw [searchRecipe_cons, h]

lemma searchRecipe_cons_some {c : Char} {cs : List Char} {s : String}
    (h : matchRecipeAt (c :: cs) = some s) :
    searchRecipe (c :: cs) = some s := by
  rw [searchRecipe_cons, h]

lemma searchRecipe_append_no_r (pre suf : List Char) (h : ∀ c ∈ pre, c ≠ 'r') :
    searchRecipe (pre ++ suf) = searchRecipe suf := by
  induction pre with
  | nil => rfl
  | cons c cs ih =>
    have hc : c ≠ 'r' := h c (List.mem_cons_self c cs)
    have ih' := ih fun x hx => h x (List.mem_cons_of_mem c hx)
    rw [List.cons_append, searchRecipe_cons_none (matchRecipeAt_cons_ne (cs ++ suf) hc), ih']

lemma takeWhile_digits (ds rest : List Char) (h : ∀ c ∈ ds, c.isDigit) :
    (ds ++ '/' :: rest).takeWhile Char.isDigit = ds
    ∧ (ds ++ '/' :: rest).dropWhile Char.isDigit = '/' :: rest := by
  induction ds with
  | nil => simp [List.takeWhile, List.dropWhile]
  | cons c cs ih =>
    have hc : c.isDigit := h c (List.mem_cons_self c cs)
    have ih' := ih fun x hx => h x (List.mem_cons_of_mem c hx)
    simp [List.takeWhile, List.dropWhile, hc, ih'.1, ih'.2]

lemma matchRecipeAt_hit (ds rest : List Char) (hne : ds ≠ [])
    (h : ∀ c ∈ ds, c.isDigit) :
    matchRecipeAt (recipeLit ++ (ds ++ '/' :: rest)) = some (String.mk ds) := by
  have hs := startsWithL_append recipeLit (ds ++ '/' :: rest)
  have hd : (recipeLit ++ (ds ++ '/' :: rest)).drop 8 = ds ++ '/' :: rest := by
    have : recipeLit.length = 8 := by decide
    rw [← this, List.drop_left]
  have ht := takeWhile_digits ds rest h
  simp [matchRecipeAt, hs, hd, ht.1, ht.2, hne]

lemma searchRecipe_hit (ds rest : List Char) (hne : ds ≠ [])
    (h : ∀ c ∈ ds, c.isDigit) :
    searchRecipe (recipeLit ++ (ds ++ '/' :: rest)) = some (String.mk ds) := by
  have hm := matchRecipeAt_hit ds rest hne h
  rw [show recipeLit ++ (ds ++ '/' :: rest)
      = 'r' :: (['e', 'z', 'e', 'p', 't', 'e', '/'] ++ (ds ++ '/' :: rest)) from rfl] at hm ⊢
  exact searchRecipe_cons_some hm

lemma matchRecipeAt_some_decomp (cs : List Char) (s : String)
    (h : matchRecipeAt cs = some s) :
    ∃ ds b, cs = recipeLit ++ ds ++ '/' :: b ∧ ds ≠ [] ∧ (∀ c ∈ ds, c.isDigit)
      ∧ s = String.mk ds := by
  unfold matchRecipeAt at h
  by_cases hp : startsWithL recipeLit cs = true
  · obtain ⟨t, rfl⟩ := (startsWithL_iff recipeLit cs).mp hp
    rw [if_pos hp] at h
    have hd : (recipeLit ++ t).drop 8 = t := by
      have h8 : recipeLit.length = 8 := by decide
      rw [← h8, List.drop_left]
    simp only [hd] at h
    by_cases hcond : t.takeWhile Char.isDigit ≠ [] ∧ (t.dropWhile Char.isDigit).head? = some '/'
    · rw [if_pos hcond] at h
      obtain ⟨h1, h2⟩ := hcond
      refine ⟨t.takeWhile Char.isDigit, (t.dropWhile Char.isDigit).tail, ?_, h1, ?_, ?_⟩
      · have hsplit : t.takeWhile Char.isDigit ++ t.dropWhile Char.isDigit = t :=
          List.takeWhile_append_dropWhile Char.isDigit t
        have hdw : t.dropWhile Char.isDigit = '/' :: (t.dropWhile Char.isDigit).tail := by
          cases hd2 : t.dropWhile Char.isDigit with
          | nil => rw [hd2] at h2; simp at h2
          | cons x xs =>
            rw [hd2] at h2
            simp only [List.head?] at h2
            simp [Option.some.inj h2]
        rw [List.append_assoc, ← hdw, hsplit]
      · intro c hc
        exact List.mem_takeWhile_imp hc
      · exact (Option.some.inj h).symm
    · rw [if_neg hcond] at h
      exact Option.noConfusion h
  · rw [if_neg hp] at h
    exact Option.noConfusion h

lemma searchRecipe_some_decomp (cs : List Char) (s : String)
    (h : searchRecipe cs = some s) :
    ∃ a ds b, cs = a ++ recipeLit ++ ds ++ '/' :: b ∧ ds ≠ []
      ∧ ∀ c ∈ ds, c.isDigit := by
  induction cs with
  | nil => simp [searchRecipe] at h
  | cons c cs ih =>
    rw [searchRecipe_cons] at h
    cases hm : matchRecipeAt (c :: cs) with
    | some s' =>
      obtain ⟨ds, b, hdec, hne, hdig, _⟩ := matchRecipeAt_some_decomp _ _ hm
      exact ⟨[], ds, b, by simpa using hdec, hne, hdig⟩
    | none =>
      rw [hm] at h
      obtain ⟨a, ds, b, hdec, hne, hdig⟩ := ih h
      exact ⟨c :: a, ds, b, by simp [hdec], hne, hdig⟩

lemma hasRecipeSegment_sound (url : String) (h : hasRecipeSegment url) :
    ∃ s, url_to_id url = some s := by
  obtain ⟨a, ds, b, hdec, hne, hdig⟩ := h
  unfold url_to_id
  rw [hdec]
  clear hdec
  induction a with
  | nil =>
    refine ⟨String.mk ds, ?_⟩
    have := searchRecipe_hit ds b hne hdig
    simpa using this
  | cons c a ih =>
    obtain ⟨s, hs⟩ := ih
    rw [List.cons_append]
    cases hm : matchRecipeAt (c :: (a ++ recipeLit ++ ds ++ '/' :: b)) with
    | some s' => exact ⟨s', searchRecipe_cons_some hm⟩
    | none => exact ⟨s, (searchRecipe_cons_none hm).trans hs⟩

lemma roundtrip_digits (id : String) (hne : id ≠ "")
    (hdig : ∀ c ∈ id.data, c.isDigit) :
    url_to_id (id_to_url id) = some id := by
  have h1 : "https://chefkoch.de/rezepte/".data = "https://chefkoch.de/".data ++ recipeLit := by
    decide
  have h2 : "/".data = ['/'] := by decide
  have hdata : (id_to_url id).data
      = "https://chefkoch.de/".data ++ (recipeLit ++ (id.data ++ ['/'])) := by
    show ("https://chefkoch.de/rezepte/" ++ id ++ "/").data = _
    rw [String.data_append, String.data_append, h1, h2, List.append_assoc, List.append_assoc]
  have hne' : id.data ≠ [] := fun h => hne (String.ext (by rw [h]))
  have hmk : String.mk id.data = id := rfl
  unfold url_to_id
  rw [hdata, searchRecipe_append_no_r _ _ (by decide),
    searchRecipe_hit id.data [] hne' hdig, hmk]

/-- C10: for a nonempty all-digit identifier, `url_to_id (id_to_url id) = id`
(the `rezepte/(\d+)/` search finds the identifier segment of the canonical
URL and the capture group restores the identifier exactly); and for a URL
containing no `rezepte/<digits>/` segment the regular-expression search
yields no match, so `url_to_id` produces no value (the `[1]` subscript on
`None` raises), modelled as `none`. -/
theorem c10_url_id_roundtrip :
    (∀ id : String, id ≠ "" → (∀ c ∈ id.data, c.isDigit) →
       url_to_id (id_to_url id) = some id)
    ∧ (∀ url : String, ¬ hasRecipeSegment url → url_to_id url = none) := by
  constructor
  · exact roundtrip_digits
  · intro url hn
    cases h : url_to_id url with
    | none => rfl
    | some s =>
      exact absurd (searchRecipe_some_decomp url.data s h) fun ⟨a, ds, b, hd, h1, h2⟩ =>
        hn ⟨a, ds, b, by simpa using hd, h1, h2⟩

/-- Witness for C10 at concrete inputs: the identifier `123` survives the
round trip, and a URL without a recipe segment yields no identifier. -/
theorem c10_witness :
    url_to_id (id_to_url "123") = some "123"
    ∧ url_to_id "https://chefkoch.de/magazin/" = none := by
  constructor
  · exact c10_url_id_roundtrip.1 "123" (by decide) (by decide)
  · refine c10_url_id_roundtrip.2 _ (fun hseg => ?_)
    obtain ⟨s, hs⟩ := hasRecipeSegment_sound _ hseg
    rw [show url_to_id "https://chefkoch.de/magazin/" = none from by decide] at hs
    exact Option.noConfusion hs

lemma splitNl_line (l rest : List Char) (h : '\n' ∉ l) :
    splitNl (l ++ '\n' :: rest) = l :: splitNl rest := by
  induction l with
  | nil => simp [splitNl]
  | cons c cs ih =>
    have hc : c ≠ '\n' := fun hcn => h (hcn ▸ List.mem_cons_self c cs)
    have ih' := ih fun hm => h (List.mem_cons_of_mem c hm)
    rw [List.cons_append, splitNl, if_neg hc, ih']

lemma readIndexLines_join (mems : List String) (h : ∀ m ∈ mems, cleanId m) :
    readIndexLines ((mems.map (fun m => m.data ++ ['\n'])).flatten) = mems := by
  induction mems with
  | nil => rfl
  | cons m ms ih =>
    have hm := h m (List.mem_cons_self m ms)
    have ih' := ih fun x hx => h x (List.mem_cons_of_mem m hx)
    unfold readIndexLines at ih' ⊢
    rw [List.map_cons, List.flatten_cons, List.append_assoc, List.singleton_append,
      splitNl_line _ _ hm.2.1, List.map_cons, ih', hm.1]

lemma fileInv_add {s : IndexState} (hs : FileInv s) {e : String} (he : cleanId e) :
    FileInv (indexAdd s e) := by
  unfold indexAdd
  by_cases hmem : e ∈ s.mem
  · rw [if_pos hmem]; exact hs
  · rw [if_neg hmem]
    constructor
    · show s.file ++ e.data ++ ['\n'] = ((s.mem ++ [e]).map (fun m => m.data ++ ['\n'])).flatten
      rw [List.map_append, List.flatten_append, ← hs.1]
      simp
    · intro m hm
      rcases List.mem_append.mp hm with h1 | h2
      · exact hs.2 m h1
      · rw [List.mem_singleton.mp h2]; exact he

lemma fileInv_addAll {s : IndexState} (hs : FileInv s) {es : List String}
    (he : ∀ e ∈ es, cleanId e) : FileInv (indexAddAll s es) := by
  induction es generalizing s with
  | nil => exact hs
  | cons e es ih =>
    exact ih (fileInv_add hs (he e (List.mem_cons_self e es)))
      fun x hx => he x (List.mem_cons_of_mem e hx)

lemma reopen_eq_mem_of_inv {s : IndexState} (hs : FileInv s) :
    reopenIndex s = s.mem := by
  unfold reopenIndex
  rw [hs.1]
  exact readIndexLines_join s.mem hs.2

/-- C5 counterexample: `add " a"` followed by close and reopen yields the set
`{"a"}`, not `{" a"}` — `line.strip()` removes the leading space, so the
round trip is NOT the identity on arbitrary string identifiers and the two
sets differ. -/
theorem c5_counterexample :
    ¬ (∀ x, x ∈ reopenIndex (indexAddAll emptyIndex [" a"])
        ↔ x ∈ (indexAddAll emptyIndex [" a"]).mem) := by
  intro hall
  have h1 : " a" ∈ (indexAddAll emptyIndex [" a"]).mem := by decide
  have h2 : " a" ∉ reopenIndex (indexAddAll emptyIndex [" a"]) := by decide
  exact h2 ((hall " a").mpr h1)

/-- C5 (amended): for every sequence of identifiers that are unchanged by
whitespace stripping and contain no line terminator (all real identifiers —
digit strings — qualify), adding them to a fresh index and reopening the
written file yields exactly the in-memory list, hence the same set. -/
theorem c5_roundtrip_clean (ids : List String) (h : ∀ id ∈ ids, cleanId id) :
    reopenIndex (indexAddAll emptyIndex ids) = (indexAddAll emptyIndex ids).mem
    ∧ ∀ x, x ∈ reopenIndex (indexAddAll emptyIndex ids)
        ↔ x ∈ (indexAddAll emptyIndex ids).mem := by
  have hinv : FileInv (indexAddAll emptyIndex ids) :=
    fileInv_addAll ⟨rfl, by intro m hm; simp [emptyIndex] at hm⟩ h
  have heq := reopen_eq_mem_of_inv hinv
  exact ⟨heq, fun x => by rw [heq]⟩

/-- Witness for C5 (amended) on a concrete run with a duplicate `add`. -/
theorem c5_roundtrip_witness :
    reopenIndex (indexAddAll emptyIndex ["12", "34", "12"])
      = (indexAddAll emptyIndex ["12", "34", "12"]).mem :=
  (c5_roundtrip_clean ["12", "34", "12"] (by decide)).1

/-- C4: when the index file is absent but its parent directory already
exists, `_Index.__init__` raises `FileExistsError` out of
`os.makedirs(dirname)` (no `exist_ok=True`) instead of starting an empty
index; creation succeeds only when the directory is absent too, and a
present file is read back. -/
theorem c4_makedirs_raises :
    index_init ⟨false, true⟩ [] = .error PyErr.fileExistsError
    ∧ index_init ⟨false, false⟩ [] = .ok ([], ⟨true, true⟩)
    ∧ index_init ⟨true, true⟩ ("12\n34\n".data) = .ok (["12", "34"], ⟨true, true⟩) := by
  exact ⟨rfl, rfl, rfl⟩

/-! ## Rate limiter  (soupchef.py lines 55-89)

`_wait_time` splits the `-l` flag value on `'-'`.  A single fragment is a
fixed delay; two fragments give a range that is sampled by
`randint(lower*1000, upper*1000) / 1000`.  Python's `random.randint` requires
integer bounds: called with a float whose value is not a whole number it
raises `ValueError` (`non-integer arg for randrange()`).  Fractional-second
values are modelled as exact rationals; every concrete value appearing in a
theorem below (0.0625, 0.1, 0.5) is a dyadic-or-exact decimal whose float
arithmetic in the source is exact, so the rational model agrees with the
float computation there.  `float(...)` is modelled by `parseDecimal?` for
plain decimal numerals (the only inputs the theorems touch; `none` models
the `ValueError` caught by the bare `except`, which leads to `exit(1)`).
`randint` is an oracle `rand`, constrained where needed to stay inside its
bounds. -/

lemma parse_0_0625 : parseDecimal? ['0', '.', '0', '6', '2', '5'] = some (1 / 16) := by
  have h1 : splitOnChar '.' ['0', '.', '0', '6', '2', '5'] = [['0'], ['0', '6', '2', '5']] := by decide
  simp only [parseDecimal?, h1]
  rw [if_pos (by decide)]
  rw [show digitsVal ['0'] = 0 from rfl, show digitsVal ['0', '6', '2', '5'] = 625 from rfl,
    show (['0', '6', '2', '5'] : List Char).length = 4 from rfl]
  norm_num

lemma parse_0_5 : parseDecimal? ['0', '.', '5'] = some (1 / 2) := by
  have h1 : splitOnChar '.' ['0', '.', '5'] = [['0'], ['5']] := by decide
  simp only [parseDecimal?, h1]
  rw [if_pos (by decide)]
  rw [show digitsVal ['0'] = 0 from rfl, show digitsVal ['5'] = 5 from rfl,
    show (['5'] : List Char).length = 1 from rfl]
  norm_num

lemma parse_0_1 : parseDecimal? ['0', '.', '1'] = some (1 / 10) := by
  have h1 : splitOnChar '.' ['0', '.', '1'] = [['0'], ['1']] := by decide
  simp only [parseDecimal?, h1]
  rw [if_pos (by decide)]
  rw [show digitsVal ['0'] = 0 from rfl, show digitsVal ['1'] = 1 from rfl,
    show (['1'] : List Char).length = 1 from rfl]
  norm_num

/-- C6 counterexample: the well-formed, non-negative, ordered range
`0.0625-0.5` (both bounds exactly representable as floats, so the float
computation in the source matches the rational one) makes `_wait_time` raise
`ValueError` inside `randint(62.5, 500.0)` instead of returning a sampled
delay. -/
theorem c6_counterexample :
    parseDecimal? ['0', '.', '0', '6', '2', '5'] = some (1 / 16)
    ∧ (0 : ℚ) ≤ 1 / 16 ∧ (1 : ℚ) / 16 ≤ 1 / 2
    ∧ wait_time (fun lo _ => lo) "0.0625-0.5" = .err PyErr.valueError := by
  refine ⟨parse_0_0625, by norm_num, by norm_num, ?_⟩
  have hs : splitOnChar '-' "0.0625-0.5".data = ["0.0625".data, "0.5".data] := by decide
  simp only [wait_time, hs, parse_0_0625, parse_0_5]
  rw [if_neg (by norm_num)]
  have hm : (1 / 16 * 1000 : ℚ) = 125 / 2 := by norm_num
  have hden : ((125 : ℚ) / 2).den ≠ 1 := by
    intro h
    have h2 : (((125 / 2 : ℚ).num : ℚ)) = 125 / 2 := Rat.coe_int_num_of_den_eq_one h
    have h3 : (2 : ℚ) * ((125 / 2 : ℚ).num : ℚ) = 125 := by rw [h2]; norm_num
    have h4 : (2 : ℤ) * (125 / 2 : ℚ).num = 125 := by exact_mod_cast h3
    omega
  simp only [pyRandint, hm]
  rw [if_neg (by simp [hden])]

/-- C6 (amended): for a range specification `a-b` with non-negative `a ≤ b`
whose bounds are whole numbers of milliseconds (so `randint`'s float bounds
are integral and it does not raise — this includes the default `0.1-0.5`),
`_wait_time` returns the delay in microseconds of a value sampled from
`[a, b]` on the millisecond grid, re-sampled through the `rand` oracle on
every call; ranges whose bounds are not whole milliseconds raise
`ValueError` (see the counterexample), and malformed or negative
specifications are rejected fatally. -/
theorem c6_wait_time_range (rand : ℤ → ℤ → ℤ)
    (hrand : ∀ lo hi : ℤ, lo ≤ hi → lo ≤ rand lo hi ∧ rand lo hi ≤ hi)
    (spec : String) (f1 f2 : List Char) (a b : ℚ)
    (hsplit : splitOnChar '-' spec.data = [f1, f2])
    (ha : parseDecimal? f1 = some a) (hb : parseDecimal? f2 = some b)
    (ha0 : 0 ≤ a) (hab : a ≤ b)
    (hma : (a * 1000).den = 1) (hmb : (b * 1000).den = 1) :
    (∃ k : ℤ, wait_time rand spec = .delay ((k : ℚ) / 1000 * 1000000)
        ∧ a ≤ (k : ℚ) / 1000 ∧ (k : ℚ) / 1000 ≤ b)
    ∧ wait_time rand "abc" = .fatal
    ∧ wait_time rand "-0.5" = .fatal
    ∧ wait_time rand "1-2-3" = .fatal := by
  refine ⟨?_, ?_, ?_, ?_⟩
  · have hb0 : 0 ≤ b := le_trans ha0 hab
    have hneg : ¬ (a < 0 ∨ b < 0) := by
      rintro (h | h)
      · exact absurd ha0 (not_le.mpr h)
      · exact absurd hb0 (not_le.mpr h)
    have hxa : ((a * 1000).num : ℚ) = a * 1000 := Rat.coe_int_num_of_den_eq_one hma
    have hxb : ((b * 1000).num : ℚ) = b * 1000 := Rat.coe_int_num_of_den_eq_one hmb
    have hle : (a * 1000).num ≤ (b * 1000).num := by
      have hq : ((a * 1000).num : ℚ) ≤ ((b * 1000).num : ℚ) := by
        rw [hxa, hxb]; nlinarith
      exact_mod_cast hq
    have hk := hrand (a * 1000).num (b * 1000).num hle
    refine ⟨rand (a * 1000).num (b * 1000).num, ?_, ?_, ?_⟩
    · simp only [wait_time, hsplit, ha, hb]
      rw [if_neg hneg]
      simp only [pyRandint, hma, hmb, and_self, if_true, if_pos hle]
    · have h1 : (((a * 1000).num : ℚ)) ≤ (rand (a * 1000).num (b * 1000).num : ℚ) := by
        exact_mod_cast hk.1
      rw [hxa] at h1
      linarith
    · have h2 : ((rand (a * 1000).num (b * 1000).num : ℚ)) ≤ ((b * 1000).num : ℚ) := by
        exact_mod_cast hk.2
      rw [hxb] at h2
      linarith
  · have hs : splitOnChar '-' "abc".data = [['a', 'b', 'c']] := by decide
    have hp : parseDecimal? ['a', 'b', 'c'] = none := by decide
    simp only [wait_time, hs, hp]
  · have hs : splitOnChar '-' "-0.5".data = [[], ['0', '.', '5']] := by decide
    have hp : parseDecimal? ([] : List Char) = none := by decide
    simp only [wait_time, hs, hp]
  · have hs : splitOnChar '-' "1-2-3".data = [['1'], ['2'], ['3']] := by decide
    simp only [wait_time, hs]

/-- Witness for C6 (amended) at the default range `0.1-0.5` with the
lower-bound oracle: some whole number of milliseconds between 0.1 s and
0.5 s is sampled and scaled to microseconds. -/
theorem c6_wait_time_witness :
    ∃ k : ℤ, wait_time (fun lo _ => lo) "0.1-0.5" = .delay ((k : ℚ) / 1000 * 1000000)
      ∧ (1 : ℚ) / 10 ≤ (k : ℚ) / 1000 ∧ (k : ℚ) / 1000 ≤ 1 / 2 := by
  have hma : ((1 : ℚ) / 10 * 1000).den = 1 := by
    rw [show ((1 : ℚ) / 10 * 1000) = ((100 : ℤ) : ℚ) from by norm_num, Rat.den_intCast]
  have hmb : ((1 : ℚ) / 2 * 1000).den = 1 := by
    rw [show ((1 : ℚ) / 2 * 1000) = ((500 : ℤ) : ℚ) from by norm_num, Rat.den_intCast]
  exact (c6_wait_time_range (fun lo _ => lo) (fun lo hi h => ⟨le_refl lo, h⟩)
    "0.1-0.5" "0.1".data "0.5".data (1 / 10) (1 / 2) (by decide) parse_0_1 parse_0_5
    (by norm_num) (by norm_num) hma hmb).1

/-- C1: on a 2xx response whose field extraction raises, `fetch_url` does
catch the exception and return the empty failure dict (`.ok none`), and the
index is not touched — but `fetch_and_save_url` then passes the empty dict
to `_write_json` unguarded, which raises `KeyError` on `data["title"]`, so
an exception escapes the worker instead of the failure marker reaching the
orchestrator (where `worker.result()` re-raises it and aborts the level). -/
theorem c1_parse_error_escapes_worker :
    fetch_url_model ⟨fun _ => 200, fun _ => none⟩ "https://chefkoch.de/rezepte/7/" = .ok none
    ∧ fetch_and_save_url_model ⟨fun _ => 200, fun _ => none⟩ false emptyIndex
        "https://chefkoch.de/rezepte/7/" = .error (PyErr.keyError "title") :=
  ⟨rfl, rfl⟩

/-- C2: with a transport answering HTTP 500 on every attempt the retry loop
performs exactly 10 GETs and never loops — but `fetch_url` then raises
`KeyError 'id'` evaluating the final log message's f-string on the empty
dict, instead of returning the empty Failure marker; the exhaustion is
therefore fatal to the crawl rather than a skipped Identifier. -/
theorem c2_retry_exhaustion_keyerror :
    (fetchLoop (fun _ => 500) 0 9).2 = 10
    ∧ fetch_url_model ⟨fun _ => 500, fun _ => none⟩ "https://chefkoch.de/rezepte/1/"
        = .error (PyErr.keyError "id")
    ∧ fetch_url_model ⟨fun _ => 200, fun _ => some ["2"]⟩ "https://chefkoch.de/rezepte/1/"
        = .ok (some ("1", ["2"])) :=
  ⟨rfl, rfl, rfl⟩

/-- C3: delivering the interrupt signal never makes `_shutdown` true.  The
handler `main` registered assigns only a local (missing `global`), the
handler installed last is the index's, which exits without touching the
flag — and consequently a worker completing afterwards still performs its
`index.add` and record write instead of skipping them. -/
theorem c3_shutdown_flag_never_set :
    (soupchef_sigint_handler ⟨false, true, false⟩).shutdown = false
    ∧ installedHandler = Handler.indexH
    ∧ (runHandler installedHandler ⟨false, true, false⟩).shutdown = false
    ∧ fetch_and_save_url_model ⟨fun _ => 200, fun _ => some []⟩
        (runHandler installedHandler ⟨false, true, false⟩).shutdown emptyIndex
        "https://chefkoch.de/rezepte/9/"
      = .ok (some ("9", []), ⟨["9"], ['9', '\n']⟩) :=
  ⟨rfl, rfl, rfl, rfl⟩

lemma submitLevel_cons (envOf : String → FetchEnv) (forceAll : Bool)
    (url : String) (rest : List String) (idx : IndexState)
    (ws : List (String × Option (String × List String))) (n : Nat) :
    submitLevel envOf forceAll (url :: rest) idx ws n
      = match url_to_id url with
        | none => .error PyErr.typeError
        | some id =>
          if forceAll = true ∨ id ∉ idx.mem then
            match fetch_and_save_url_model (envOf url) false idx url with
            | .error e => .error e
            | .ok (data, idx') =>
              submitLevel envOf forceAll rest idx' (dictInsert id data ws) (n + 1)
          else submitLevel envOf forceAll rest idx ws n := rfl

lemma processLevel_urls {envOf : String → FetchEnv} {forceAll : Bool}
    {idx idx2 : IndexState} {level : List String} {lr : LevelRec} {f : Nat}
    (h : processLevel envOf forceAll idx level = .ok (idx2, lr, f)) :
    lr.urls = level := by
  unfold processLevel at h
  cases hs : submitLevel envOf forceAll level idx [] 0 with
  | error e => rw [hs] at h; exact Except.noConfusion h
  | ok v =>
    rw [hs] at h
    obtain ⟨idx', ws, n⟩ := v
    simp only [Except.ok.injEq, Prod.mk.injEq] at h
    rw [← h.2.1]

lemma crawlLoop_spec (envOf : String → FetchEnv) (forceAll : Bool) :
    ∀ (b : Nat) (idx : IndexState) (level : List String) (out : CrawlOut),
    crawlLoop envOf forceAll b idx level = .ok out →
    out.levels.length ≤ b + 1
    ∧ (∃ lr rest, out.levels = lr :: rest ∧ lr.urls = level)
    ∧ (∀ i lri, out.levels[i]? = some lri →
        ((out.levels[i + 1]?).isSome ↔ (i + 1 ≤ b ∧ lri.related ≠ [])))
    ∧ (∀ i lri lrj, out.levels[i]? = some lri → out.levels[i + 1]? = some lrj →
        lrj.urls = lri.related) := by
  intro b
  induction b with
  | zero =>
    intro idx level out h
    unfold crawlLoop at h
    cases hp : processLevel envOf forceAll idx level with
    | error e => rw [hp] at h; exact Except.noConfusion h
    | ok v =>
      obtain ⟨idx', lr, fetched⟩ := v
      simp only [hp] at h
      have hout : out = ⟨[lr], fetched, idx'⟩ := (Except.ok.inj h).symm
      subst hout
      refine ⟨by simp, ⟨lr, [], rfl, processLevel_urls hp⟩, ?_, ?_⟩
      · intro i lri hlri
        cases i with
        | zero =>
          simp only [List.getElem?_cons_succ, List.getElem?_nil, Option.isSome_none]
          constructor
          · intro hfalse; exact absurd hfalse (by simp)
          · rintro ⟨hb, -⟩; exact absurd hb (by omega)
        | succ j =>
          simp only [List.getElem?_cons_succ, List.getElem?_nil] at hlri
          exact Option.noConfusion hlri
      · intro i lri lrj hlri hlrj
        cases i with
        | zero =>
          simp only [List.getElem?_cons_succ, List.getElem?_nil] at hlrj
          exact Option.noConfusion hlrj
        | succ j =>
          simp only [List.getElem?_cons_succ, List.getElem?_nil] at hlri
          exact Option.noConfusion hlri
  | succ b ih =>
    intro idx level out h
    unfold crawlLoop at h
    cases hp : processLevel envOf forceAll idx level with
    | error e => rw [hp] at h; exact Except.noConfusion h
    | ok v =>
      obtain ⟨idx', lr, fetched⟩ := v
      simp only [hp] at h
      cases hrel : lr.related with
      | nil =>
        simp only [hrel] at h
        have hout : out = ⟨[lr], fetched, idx'⟩ := (Except.ok.inj h).symm
        subst hout
        refine ⟨by simp, ⟨lr, [], rfl, processLevel_urls hp⟩, ?_, ?_⟩
        · intro i lri hlri
          cases i with
          | zero =>
            simp only [List.getElem?_cons_zero, Option.some.injEq] at hlri
            simp only [List.getElem?_cons_succ, List.getElem?_nil, Option.isSome_none]
            constructor
            · intro hfalse; exact absurd hfalse (by simp)
            · rintro ⟨-, hne⟩
              exact (hne (by rw [← hlri, hrel])).elim
          | succ j =>
            simp only [List.getElem?_cons_succ, List.getElem?_nil] at hlri
            exact Option.noConfusion hlri
        · intro i lri lrj hlri hlrj
          cases i with
          | zero =>
            simp only [List.getElem?_cons_succ, List.getElem?_nil] at hlrj
            exact Option.noConfusion hlrj
          | succ j =>
            simp only [List.getElem?_cons_succ, List.getElem?_nil] at hlri
            exact Option.noConfusion hlri
      | cons r rs =>
        simp only [hrel] at h
        cases hc : crawlLoop envOf forceAll b idx' (r :: rs) with
        | error e => rw [hc] at h; exact Except.noConfusion h
        | ok out' =>
          simp only [hc] at h
          have hout : out = ⟨lr :: out'.levels, fetched + out'.totalFetched, out'.index⟩ :=
            (Except.ok.inj h).symm
          subst hout
          obtain ⟨hlen', ⟨lr', rest', hcons', hurls'⟩, hiff', hchain'⟩ :=
            ih idx' (r :: rs) out' hc
          refine ⟨by simp; omega, ⟨lr, out'.levels, rfl, processLevel_urls hp⟩, ?_, ?_⟩
          · intro i lri hlri
            cases i with
            | zero =>
              simp only [List.getElem?_cons_zero, Option.some.injEq] at hlri
              simp only [List.getElem?_cons_succ, hcons', List.getElem?_cons_zero,
                Option.isSome_some]
              constructor
              · intro _
                exact ⟨by omega, by rw [← hlri, hrel]; simp⟩
              · intro _
                trivial
            | succ j =>
              simp only [List.getElem?_cons_succ] at hlri ⊢
              have := hiff' j lri hlri
              constructor
              · intro hs
                obtain ⟨hb2, hne⟩ := this.mp hs
                exact ⟨by omega, hne⟩
              · rintro ⟨hb, hne⟩
                exact this.mpr ⟨by omega, hne⟩
          · intro i lri lrj hlri hlrj
            cases i with
            | zero =>
              simp only [List.getElem?_cons_zero, Option.some.injEq] at hlri
              simp only [List.getElem?_cons_succ, hcons', List.getElem?_cons_zero,
                Option.some.injEq] at hlrj
              rw [← hlrj, hurls', ← hlri, hrel]
            | succ j =>
              simp only [List.getElem?_cons_succ] at hlri hlrj
              exact hchain' j lri lrj hlri hlrj

/-- C7: a `fetch_urls` run that returns normally processes at most
`recursionDepth + 1` breadth-first levels; the first level is the seed list;
with depth 0 only the seed level is processed (so related recipes are never
fetched); and a level `i+1` exists exactly when the number of levels already
started (`i+1`) is at most the depth and level `i` surfaced at least one
related URL — which then becomes level `i+1`'s worklist. -/
theorem c7_depth_bound (envOf : String → FetchEnv) (forceAll : Bool) (d : Nat)
    (idx : IndexState) (seeds : List String) (out : CrawlOut)
    (h : fetch_urls_model envOf false forceAll d idx seeds = .ok out) :
    out.levels.length ≤ d + 1
    ∧ (∃ lr rest, out.levels = lr :: rest ∧ lr.urls = seeds)
    ∧ (d = 0 → out.levels.map LevelRec.urls = [seeds])
    ∧ (∀ i lri, out.levels[i]? = some lri →
        ((out.levels[i + 1]?).isSome ↔ (i + 1 ≤ d ∧ lri.related ≠ [])))
    ∧ (∀ i lri lrj, out.levels[i]? = some lri → out.levels[i + 1]? = some lrj →
        lrj.urls = lri.related) := by
  have hc : crawlLoop envOf forceAll d idx seeds = .ok out := h
  obtain ⟨h1, h2, h3, h4⟩ := crawlLoop_spec envOf forceAll d idx seeds out hc
  refine ⟨h1, h2, ?_, h3, h4⟩
  intro hd
  subst hd
  obtain ⟨lr, rest, hcons, hurls⟩ := h2
  have hrest : rest = [] := by
    rw [hcons] at h1
    simp only [List.length_cons] at h1
    exact List.eq_nil_of_length_eq_zero (by omega)
  subst hrest
  rw [hcons]
  simp [hurls]

/-- Witness for C7 on a two-level crawl (depth 1, every page related to
recipe 2): the run returns and its level count is within the bound. -/
theorem c7_witness :
    ∃ out, fetch_urls_model (fun _ => ⟨fun _ => 200, fun _ => some ["2"]⟩) false false 1
        emptyIndex ["https://chefkoch.de/rezepte/1/"] = .ok out
      ∧ out.levels.length ≤ 2 :=
  ⟨_, rfl, (c7_depth_bound (fun _ => ⟨fun _ => 200, fun _ => some ["2"]⟩) false 1
    emptyIndex ["https://chefkoch.de/rezepte/1/"] _ rfl).1⟩

lemma submitLevel_all_skipped (envOf : String → FetchEnv) :
    ∀ (urls : List String) (idx : IndexState)
      (ws : List (String × Option (String × List String))) (n : Nat),
    (∀ url ∈ urls, ∃ id, url_to_id url = some id ∧ id ∈ idx.mem) →
    submitLevel envOf false urls idx ws n = .ok (idx, ws, n) := by
  intro urls
  induction urls with
  | nil => intro idx ws n _; rfl
  | cons url rest ih =>
    intro idx ws n h
    obtain ⟨id, hid, hmem⟩ := h url (List.mem_cons_self url rest)
    rw [submitLevel_cons]
    simp only [hid]
    rw [if_neg (by simp [hmem])]
    exact ih idx ws n (fun u hu => h u (List.mem_cons_of_mem url hu))

/-- C8: with `forceAll = false` and every seed URL's identifier already in
the index, `fetch_urls` dispatches zero workers (each URL is skipped at
dispatch time), fetches nothing, records no related URLs, leaves the index
unchanged and terminates after the single seed level with a total fetched
count of 0. -/
theorem c8_all_in_index_zero_fetches (envOf : String → FetchEnv) (d : Nat)
    (idx : IndexState) (seeds : List String)
    (h : ∀ url ∈ seeds, ∃ id, url_to_id url = some id ∧ id ∈ idx.mem) :
    fetch_urls_model envOf false false d idx seeds
      = .ok ⟨[⟨seeds, 0, [], []⟩], 0, idx⟩ := by
  have hsub := submitLevel_all_skipped envOf seeds idx [] 0 h
  have hproc : processLevel envOf false idx seeds = .ok (idx, ⟨seeds, 0, [], []⟩, 0) := by
    unfold processLevel
    rw [hsub]
    rfl
  show crawlLoop envOf false d idx seeds = _
  cases d with
  | zero =>
    unfold crawlLoop
    rw [hproc]
  | succ b =>
    unfold crawlLoop
    rw [hproc]

/-- Witness for C8: one seed whose identifier `1` is already indexed, depth
3 — no dispatch, nothing fetched, index unchanged. -/
theorem c8_witness :
    fetch_urls_model (fun _ => ⟨fun _ => 200, fun _ => some []⟩) false false 3
        ⟨["1"], ['1', '\n']⟩ ["https://chefkoch.de/rezepte/1/"]
      = .ok ⟨[⟨["https://chefkoch.de/rezepte/1/"], 0, [], []⟩], 0, ⟨["1"], ['1', '\n']⟩⟩ :=
  c8_all_in_index_zero_fetches (fun _ => ⟨fun _ => 200, fun _ => some []⟩) 3
    ⟨["1"], ['1', '\n']⟩ ["https://chefkoch.de/rezepte/1/"]
    (fun url hu => by
      rw [List.mem_singleton.mp hu]
      exact ⟨"1", by decide, by decide⟩)

/-- C9 counterexample: after the offset-500 page has failed all 10 tries,
pagination does NOT stop early — the loop advances and performs another
round of requests at offset 1000 (the attempted offsets are `[0, 500,
1000]`, not `[0, 500]`), because a failed page leaves `json_data` at the
previous page and only the `offset + 500 >= total_count` test breaks the
loop. -/
theorem c9_counterexample :
    fetch_comments_model c9stub (-1) 10
      = some (.ok (List.range 500, [0, 500, 1000]))
    ∧ [0, 500, 1000] ≠ [0, 500] :=
  ⟨rfl, by decide⟩

/-- C9 (amended): in the scenario — first page succeeds with 500 of a
declared 1200, all retries at every later offset fail — `fetch_comments`
keeps paging until `offset + 500` reaches the declared total (offsets 0,
500, 1000) and then returns exactly the 500 first-page comments: not an
empty list and not an exception; earlier progress is never discarded. -/
theorem c9_partial_pages_kept :
    fetch_comments_model c9stub (-1) 10
      = some (.ok (List.range 500, [0, 500, 1000]))
    ∧ (List.range 500).length = 500
    ∧ List.range 500 ≠ ([] : List Nat) :=
  ⟨rfl, by simp, by decide⟩

end Soupchef

